import Mathlib

/-!
Global-shortcut binding: embedding of `dist-js/index.mjs`.

The module `dist-js/index.mjs` exports five asynchronous functions.  Each one
builds an argument object and hands it to `invoke`, imported together with
`transformCallback` from `@tauri-apps/api/tauri`.  Both imported functions are
outside the module, so they are parameters of the embedding (`Tauri`): each is
a fallible, state-passing function on an abstract world `W`.

Every embedded function returns an `Outcome`: what the promise settles to
(`Except.ok` for a resolved promise, `Except.error` for a rejected one), the
world afterwards, and the trace of calls made to the two imported functions,
in the order JavaScript evaluates them.
-/

set_option autoImplicit false

namespace GlobalShortcut

/-! ## Data model of the binding -/

/-- A value stored in a field of an argument object: the caller's string, the
caller's array of strings, or the token returned by `transformCallback`. -/
inductive ArgValue (T : Type) where
  | str (s : String)
  | strs (l : List String)
  | token (t : T)
  deriving DecidableEq, Repr

/-- An object literal: its fields in source order. -/
abbrev ArgObject (T : Type) := List (String × ArgValue T)

/-- One call made by the module to an imported function. -/
inductive Call (H T : Type) where
  | transformCallback (handler : H)
  | invoke (cmd : String) (args : Option (ArgObject T))
  deriving DecidableEq, Repr

/-- The two functions imported from `@tauri-apps/api/tauri`.  `invoke` takes
the command and the argument object (`none` when the call site passes no
second argument). -/
structure Tauri (H T V E W : Type) where
  transformCallback : H → W → Except E T × W
  invoke : String → Option (ArgObject T) → W → Except E V × W

/-- What a call of an exported function amounts to. -/
structure Outcome (H T V E W : Type) where
  result : Except E V
  world : W
  trace : List (Call H T)

section Binding

variable {H T V E W : Type}

/-- The host request carried by a call, if it is a call of `invoke`. -/
def Call.request : Call H T → Option (String × Option (ArgObject T))
  | .transformCallback _ => none
  | .invoke cmd args => some (cmd, args)

/-- The host invocations of a trace, in order. -/
def invocations (tr : List (Call H T)) : List (String × Option (ArgObject T)) :=
  tr.filterMap Call.request

/-- The handlers passed to `transformCallback` in a trace, in order. -/
def transformed (tr : List (Call H T)) : List H :=
  tr.filterMap fun c =>
    match c with
    | .transformCallback h => some h
    | .invoke _ _ => none

/-- Lines 19-24: `register(shortcut, handler)`.  The object literal is
evaluated first, so `transformCallback(handler)` runs before `invoke`; if it
throws, the promise rejects and `invoke` is never reached. -/
def register (api : Tauri H T V E W) (shortcut : String) (handler : H) (w : W) :
    Outcome H T V E W :=
  match api.transformCallback handler w with
  | (.error e, w1) => ⟨.error e, w1, [.transformCallback handler]⟩
  | (.ok t, w1) =>
    let args : Option (ArgObject T) :=
      some [("shortcut", .str shortcut), ("handler", .token t)]
    match api.invoke "plugin:globalShortcut|register" args w1 with
    | (r, w2) =>
      ⟨r, w2, [.transformCallback handler, .invoke "plugin:globalShortcut|register" args]⟩

/-- Lines 40-45: `registerAll(shortcuts, handler)`. -/
def registerAll (api : Tauri H T V E W) (shortcuts : List String) (handler : H) (w : W) :
    Outcome H T V E W :=
  match api.transformCallback handler w with
  | (.error e, w1) => ⟨.error e, w1, [.transformCallback handler]⟩
  | (.ok t, w1) =>
    let args : Option (ArgObject T) :=
      some [("shortcuts", .strs shortcuts), ("handler", .token t)]
    match api.invoke "plugin:globalShortcut|register_all" args w1 with
    | (r, w2) =>
      ⟨r, w2, [.transformCallback handler, .invoke "plugin:globalShortcut|register_all" args]⟩

/-- Lines 61-65: `isRegistered(shortcut)`. -/
def isRegistered (api : Tauri H T V E W) (shortcut : String) (w : W) : Outcome H T V E W :=
  let args : Option (ArgObject T) := some [("shortcut", .str shortcut)]
  match api.invoke "plugin:globalShortcut|is_registered" args w with
  | (r, w1) => ⟨r, w1, [.invoke "plugin:globalShortcut|is_registered" args]⟩

/-- Lines 78-82: `unregister(shortcut)`. -/
def unregister (api : Tauri H T V E W) (shortcut : String) (w : W) : Outcome H T V E W :=
  let args : Option (ArgObject T) := some [("shortcut", .str shortcut)]
  match api.invoke "plugin:globalShortcut|unregister" args w with
  | (r, w1) => ⟨r, w1, [.invoke "plugin:globalShortcut|unregister" args]⟩

/-- Lines 93-95: `unregisterAll()`.  `invoke` is called with the command
only. -/
def unregisterAll (api : Tauri H T V E W) (w : W) : Outcome H T V E W :=
  match api.invoke "plugin:globalShortcut|unregister_all" none w with
  | (r, w1) => ⟨r, w1, [.invoke "plugin:globalShortcut|unregister_all" none]⟩

/-- Line 97: the names in the `export` statement, in source order. -/
def moduleExports : List String :=
  ["isRegistered", "register", "registerAll", "unregister", "unregisterAll"]

/-- A call of one of the exported functions, with its actual arguments. -/
inductive Request (H : Type) where
  | register (shortcut : String) (handler : H)
  | registerAll (shortcuts : List String) (handler : H)
  | isRegistered (shortcut : String)
  | unregister (shortcut : String)
  | unregisterAll
  deriving DecidableEq, Repr

/-- The exported name a request calls. -/
def Request.name : Request H → String
  | .register _ _ => "register"
  | .registerAll _ _ => "registerAll"
  | .isRegistered _ => "isRegistered"
  | .unregister _ => "unregister"
  | .unregisterAll => "unregisterAll"

/-- The number of parameters in the function declaration the request calls
(lines 19, 40, 61, 78 and 93). -/
def Request.arity : Request H → Nat
  | .register _ _ => 2
  | .registerAll _ _ => 2
  | .isRegistered _ => 1
  | .unregister _ => 1
  | .unregisterAll => 0

/-- Calling the exported function a request names. -/
def Request.run (api : Tauri H T V E W) : Request H → W → Outcome H T V E W
  | .register s h => GlobalShortcut.register api s h
  | .registerAll l h => GlobalShortcut.registerAll api l h
  | .isRegistered s => GlobalShortcut.isRegistered api s
  | .unregister s => GlobalShortcut.unregister api s
  | .unregisterAll => GlobalShortcut.unregisterAll api

/-- The commands a request sends to the host, in order. -/
def Request.commands (api : Tauri H T V E W) (r : Request H) (w : W) : List String :=
  (invocations (r.run api w).trace).map Prod.fst

end Binding

/-! ## Host side

The plugin that answers the five commands is not part of `dist-js/index.mjs`.
The definitions of this section follow the specification (sections 3, 4.2,
4.3 and 6) instead.  The accelerator parser and the operating system's answer
to a hook request are parameters: `parse` and `denied`.
-/

/-- Modelled from the spec: the error taxonomy of section 7 (the host plugin
is missing from the sources).  `badRequest` stands for a command or argument
object outside the call surface of section 6. -/
inductive HostError where
  | invalidAccelerator
  | alreadyRegistered
  | hookInstallError
  | badRequest
  deriving DecidableEq, Repr

/-- Modelled from the spec: what a host operation answers, nothing for the
four mutating operations and a boolean for `isRegistered` (section 6; the host
plugin is missing from the sources). -/
inductive HostValue where
  | unit
  | bool (b : Bool)
  deriving DecidableEq, Repr

/-- Modelled from the spec: the Registry of section 3, a mapping from
KeyCombination to the handler reference registered for it, together with the
hooks the Platform Hook Adapter currently has installed, one per combination
(the host plugin is missing from the sources). -/
structure HostState (K T : Type) where
  registry : List (K × T)
  hooks : List K

/-- Modelled from the spec: the five operations of the call surface of
section 6, as the host receives them (the host plugin is missing from the
sources). -/
inductive HostCommand (T : Type) where
  | register (spec : String) (handlerToken : T)
  | registerAll (specs : List String) (handlerToken : T)
  | isRegistered (spec : String)
  | unregister (spec : String)
  | unregisterAll
  deriving DecidableEq, Repr

section Host

variable {H K T : Type} [DecidableEq K]

/-- Modelled from the spec: a host with no Registration and no hook (the host
plugin is missing from the sources). -/
def HostState.empty : HostState K T := ⟨[], []⟩

/-- Modelled from the spec: Platform Hook Adapter `install` of section 4.2,
which fails when the OS reports the combination claimed by another process or
denies the grant (the adapter is missing from the sources). -/
def Adapter.install (denied : K → Bool) (combo : K) (hooks : List K) : Option (List K) :=
  if denied combo then none else some (combo :: hooks)

/-- Modelled from the spec: Platform Hook Adapter `remove` of section 4.2,
idempotent (the adapter is missing from the sources). -/
def Adapter.remove (combo : K) (hooks : List K) : List K :=
  hooks.filter fun k => decide (k ≠ combo)

/-- Modelled from the spec: Platform Hook Adapter `removeAll` of section 4.2
(the adapter is missing from the sources). -/
def Adapter.removeAll (_hooks : List K) : List K := []

/-- Modelled from the spec: Shortcut Registry `isRegistered` of section 4.3,
true only if this process holds a Registration for the combination (the
registry is missing from the sources). -/
def Registry.isRegistered (combo : K) (σ : HostState K T) : Bool :=
  σ.registry.any fun p => decide (p.1 = combo)

/-- Modelled from the spec: Shortcut Registry `register` of section 4.3.  A
combination that already has a Registration fails without touching the hook;
otherwise the hook is installed, and only then the Registration is stored (the
registry is missing from the sources). -/
def Registry.register (denied : K → Bool) (combo : K) (handler : T) (σ : HostState K T) :
    Except HostError Unit × HostState K T :=
  if Registry.isRegistered combo σ then (.error .alreadyRegistered, σ)
  else
    match Adapter.install denied combo σ.hooks with
    | none => (.error .hookInstallError, σ)
    | some hooks => (.ok (), ⟨(combo, handler) :: σ.registry, hooks⟩)

/-- Modelled from the spec: Shortcut Registry `unregister` of section 4.3,
which removes the Registration if present and releases its hook, and is a
no-op if absent (the registry is missing from the sources). -/
def Registry.unregister (combo : K) (σ : HostState K T) : HostState K T :=
  ⟨σ.registry.filter fun p => decide (p.1 ≠ combo), Adapter.remove combo σ.hooks⟩

/-- Modelled from the spec: Shortcut Registry `unregisterAll` of section 4.3
(the registry is missing from the sources). -/
def Registry.unregisterAll (σ : HostState K T) : HostState K T :=
  ⟨[], Adapter.removeAll σ.hooks⟩

/-- Modelled from the spec: the rollback of section 4.3, every combination
registered earlier in the call is unregistered and its hook removed, the most
recent first (the registry is missing from the sources). -/
def Registry.rollback (done : List K) (σ : HostState K T) : HostState K T :=
  done.foldl (fun τ k => Registry.unregister k τ) σ

/-- Modelled from the spec: the loop of `registerAll` of section 4.3, which
processes the combinations in the given order; `done` holds the combinations
registered so far in this call, the most recent first (the registry is
missing from the sources). -/
def Registry.registerAllFrom (denied : K → Bool) (handler : T) :
    List K → List K → HostState K T → Except HostError Unit × HostState K T
  | [], _, σ => (.ok (), σ)
  | k :: ks, done, σ =>
    match Registry.register denied k handler σ with
    | (.ok _, σ1) => Registry.registerAllFrom denied handler ks (k :: done) σ1
    | (.error e, σ1) => (.error e, Registry.rollback done σ1)

/-- Modelled from the spec: Shortcut Registry `registerAll` of section 4.3
(the registry is missing from the sources). -/
def Registry.registerAll (denied : K → Bool) (combos : List K) (handler : T)
    (σ : HostState K T) : Except HostError Unit × HostState K T :=
  Registry.registerAllFrom denied handler combos [] σ

/-- Modelled from the spec: the Accelerator Parser applied to each
specification of a batch, failing on the first one it rejects (section 4.1;
the parser is missing from the sources). -/
def parseAll (parse : String → Option K) : List String → Option (List K)
  | [] => some []
  | s :: ss =>
    match parse s with
    | none => none
    | some k =>
      match parseAll parse ss with
      | none => none
      | some ks => some (k :: ks)

/-- Modelled from the spec: the data flow of section 2, caller request, then
Accelerator Parser, then Shortcut Registry (the host plugin is missing from the
sources). -/
def Host.perform (parse : String → Option K) (denied : K → Bool) :
    HostCommand T → HostState K T → Except HostError HostValue × HostState K T
  | .register spec t, σ =>
    match parse spec with
    | none => (.error .invalidAccelerator, σ)
    | some k =>
      match Registry.register denied k t σ with
      | (.ok _, σ1) => (.ok .unit, σ1)
      | (.error e, σ1) => (.error e, σ1)
  | .registerAll specs t, σ =>
    match parseAll parse specs with
    | none => (.error .invalidAccelerator, σ)
    | some ks =>
      match Registry.registerAll denied ks t σ with
      | (.ok _, σ1) => (.ok .unit, σ1)
      | (.error e, σ1) => (.error e, σ1)
  | .isRegistered spec, σ =>
    match parse spec with
    | none => (.error .invalidAccelerator, σ)
    | some k => (.ok (.bool (Registry.isRegistered k σ)), σ)
  | .unregister spec, σ =>
    match parse spec with
    | none => (.error .invalidAccelerator, σ)
    | some k => (.ok .unit, Registry.unregister k σ)
  | .unregisterAll, σ => (.ok .unit, Registry.unregisterAll σ)

/-- Modelled from the spec: reading a request of the binding as one of the
five operations of section 6.  The command strings and field names are the
ones `dist-js/index.mjs` sends (the host plugin is missing from the
sources). -/
def Host.decode (cmd : String) (args : Option (ArgObject T)) : Option (HostCommand T) :=
  if cmd = "plugin:globalShortcut|register" then
    match args with
    | some obj =>
      match obj.lookup "shortcut", obj.lookup "handler" with
      | some (.str s), some (.token t) => some (.register s t)
      | _, _ => none
    | none => none
  else if cmd = "plugin:globalShortcut|register_all" then
    match args with
    | some obj =>
      match obj.lookup "shortcuts", obj.lookup "handler" with
      | some (.strs l), some (.token t) => some (.registerAll l t)
      | _, _ => none
    | none => none
  else if cmd = "plugin:globalShortcut|is_registered" then
    match args with
    | some obj =>
      match obj.lookup "shortcut" with
      | some (.str s) => some (.isRegistered s)
      | _ => none
    | none => none
  else if cmd = "plugin:globalShortcut|unregister" then
    match args with
    | some obj =>
      match obj.lookup "shortcut" with
      | some (.str s) => some (.unregister s)
      | _ => none
    | none => none
  else if cmd = "plugin:globalShortcut|unregister_all" then some .unregisterAll
  else none

/-- Modelled from the spec: the host answering `invoke` (the host plugin is
missing from the sources). -/
def Host.invoke (parse : String → Option K) (denied : K → Bool) (cmd : String)
    (args : Option (ArgObject T)) (σ : HostState K T) :
    Except HostError HostValue × HostState K T :=
  match Host.decode cmd args with
  | none => (.error .badRequest, σ)
  | some c => Host.perform parse denied c σ

/-- The binding's two imports when the modelled host is on the other side:
`mint` stands for `transformCallback`, which leaves the host untouched. -/
def hostApi (parse : String → Option K) (denied : K → Bool) (mint : H → Except HostError T) :
    Tauri H T HostValue HostError (HostState K T) where
  transformCallback := fun h σ => (mint h, σ)
  invoke := Host.invoke parse denied

/-- The host state after a sequence of calls of exported functions. -/
def runSession {V E W : Type} (api : Tauri H T V E W) : List (Request H) → W → W
  | [], w => w
  | r :: rs, w => runSession api rs (r.run api w).world

/-- Whether a request asks to register the combination `k`. -/
def Request.registers (parse : String → Option K) (k : K) : Request H → Bool
  | .register s _ => decide (parse s = some k)
  | .registerAll l _ => l.any fun s => decide (parse s = some k)
  | _ => false

/-- Whether a request releases the combination `k`. -/
def Request.releases (parse : String → Option K) (k : K) : Request H → Bool
  | .unregister s => decide (parse s = some k)
  | .unregisterAll => true
  | _ => false

end Host

/-! ## Auxiliary definitions used to state the properties -/

section Statement

variable {H T : Type}

/-- The values sent in the `shortcut` field of the invocations of a trace. -/
def shortcutFields (tr : List (Call H T)) : List (ArgValue T) :=
  (invocations tr).filterMap fun req =>
    match req.2 with
    | some obj => obj.lookup "shortcut"
    | none => none

/-- The field names of an argument object, `none` when there is no object. -/
def argShape (args : Option (ArgObject T)) : Option (List String) :=
  args.map fun obj => obj.map Prod.fst

/-- The snake-case form of a camel-case name: an upper-case letter becomes an
underscore followed by the lower-case letter. -/
def snakeCase (name : String) : String :=
  ⟨name.toList.flatMap fun c => if c.isUpper then ['_', c.toLower] else [c]⟩

/-- The command the host plugin names its handler for an exported function:
the plugin namespace followed by the snake-case form of the export's name. -/
def hostCommandOf (name : String) : String :=
  "plugin:globalShortcut|" ++ snakeCase name

end Statement

/-! ## Concrete collaborators used to instantiate the statements -/

/-- A host that answers every invocation with the request it received, and a
`transformCallback` that numbers the handler. -/
def echoApi : Tauri Nat Nat (String × Option (ArgObject Nat)) String Unit where
  transformCallback := fun h w => (.ok (h + 100), w)
  invoke := fun cmd args w => (.ok (cmd, args), w)

/-- A host that rejects every invocation; `transformCallback` succeeds. -/
def rejectingApi : Tauri Nat Nat Bool String Unit where
  transformCallback := fun h w => (.ok (h + 100), w)
  invoke := fun cmd _ w => (.error cmd, w)

/-- A `transformCallback` that throws; the host would answer `true`. -/
def throwingApi : Tauri Nat Nat Bool String Unit where
  transformCallback := fun _ w => (.error "transformCallback threw", w)
  invoke := fun _ _ w => (.ok true, w)

/-- A parser standing in for the Accelerator Parser: the empty string is
rejected, any other string is its own combination. -/
def demoParse (s : String) : Option String :=
  if s = "" then none else some s

/-- The modelled host with `demoParse`, where the OS denies exactly the
combination `Ctrl+Alt+Delete`. -/
def demoHost : Tauri Nat Nat HostValue HostError (HostState String Nat) :=
  hostApi demoParse (fun k => decide (k = "Ctrl+Alt+Delete")) (fun h => .ok (h + 100))

/-! ## The binding: one request per call -/

section BindingTheorems

variable {H T V E W : Type}

/-- C1: whenever `transformCallback(h)` returns the token `t`, `register(s, h)`
makes exactly one host invocation, with command
`plugin:globalShortcut|register` and an argument object of exactly the two
fields `shortcut = s` and `handler = t` (the token, of a type other than the
handler's), and it settles to exactly what that invocation settles to. -/
theorem register_sends_one_request (api : Tauri H T V E W) (s : String) (h : H) (w w1 : W)
    (t : T) (ht : api.transformCallback h w = (.ok t, w1)) :
    invocations (register api s h w).trace =
        [("plugin:globalShortcut|register",
          some [("shortcut", ArgValue.str s), ("handler", ArgValue.token t)])] ∧
      (register api s h w).result =
        (api.invoke "plugin:globalShortcut|register"
          (some [("shortcut", ArgValue.str s), ("handler", ArgValue.token t)]) w1).1 ∧
      (register api s h w).world =
        (api.invoke "plugin:globalShortcut|register"
          (some [("shortcut", ArgValue.str s), ("handler", ArgValue.token t)]) w1).2 := by
  simp [register, ht, invocations, Call.request]

theorem register_sends_one_request_witness :
    echoApi.transformCallback 7 () = (.ok 107, ()) ∧
      invocations (register echoApi "CommandOrControl+Shift+C" 7 ()).trace =
        [("plugin:globalShortcut|register",
          some [("shortcut", ArgValue.str "CommandOrControl+Shift+C"),
            ("handler", ArgValue.token 107)])] ∧
      (register echoApi "CommandOrControl+Shift+C" 7 ()).result =
        (echoApi.invoke "plugin:globalShortcut|register"
          (some [("shortcut", ArgValue.str "CommandOrControl+Shift+C"),
            ("handler", ArgValue.token 107)]) ()).1 ∧
      (register echoApi "CommandOrControl+Shift+C" 7 ()).world =
        (echoApi.invoke "plugin:globalShortcut|register"
          (some [("shortcut", ArgValue.str "CommandOrControl+Shift+C"),
            ("handler", ArgValue.token 107)]) ()).2 :=
  ⟨rfl, register_sends_one_request echoApi "CommandOrControl+Shift+C" 7 () () 107 rfl⟩

/-- C2: whenever `transformCallback(h)` returns the token `t`, `registerAll(L, h)`
makes exactly one host invocation, with command
`plugin:globalShortcut|register_all`, whose `shortcuts` field is the list `L`
as given (empty list and duplicates included) and whose `handler` field is
`t`; `transformCallback` is called once, with `h`, so one token serves the
whole batch. -/
theorem registerAll_sends_one_request (api : Tauri H T V E W) (L : List String) (h : H)
    (w w1 : W) (t : T) (ht : api.transformCallback h w = (.ok t, w1)) :
    invocations (registerAll api L h w).trace =
        [("plugin:globalShortcut|register_all",
          some [("shortcuts", ArgValue.strs L), ("handler", ArgValue.token t)])] ∧
      transformed (registerAll api L h w).trace = [h] ∧
      (registerAll api L h w).result =
        (api.invoke "plugin:globalShortcut|register_all"
          (some [("shortcuts", ArgValue.strs L), ("handler", ArgValue.token t)]) w1).1 := by
  simp [registerAll, ht, invocations, transformed, Call.request]

theorem registerAll_sends_one_request_witness :
    echoApi.transformCallback 7 () = (.ok 107, ()) ∧
      invocations (registerAll echoApi ["Ctrl+A", "Ctrl+B", "Ctrl+A"] 7 ()).trace =
        [("plugin:globalShortcut|register_all",
          some [("shortcuts", ArgValue.strs ["Ctrl+A", "Ctrl+B", "Ctrl+A"]),
            ("handler", ArgValue.token 107)])] ∧
      transformed (registerAll echoApi ["Ctrl+A", "Ctrl+B", "Ctrl+A"] 7 ()).trace = [7] ∧
      (registerAll echoApi ["Ctrl+A", "Ctrl+B", "Ctrl+A"] 7 ()).result =
        (echoApi.invoke "plugin:globalShortcut|register_all"
          (some [("shortcuts", ArgValue.strs ["Ctrl+A", "Ctrl+B", "Ctrl+A"]),
            ("handler", ArgValue.token 107)]) ()).1 :=
  ⟨rfl, registerAll_sends_one_request echoApi ["Ctrl+A", "Ctrl+B", "Ctrl+A"] 7 () () 107 rfl⟩

/-- C3: `isRegistered(s)` makes exactly one host invocation, of
`plugin:globalShortcut|is_registered` with the argument object `{shortcut: s}`,
and settles to exactly what the host answers: it resolves to a value `v`
exactly when the host resolves to `v`, and rejects with `e` exactly when the
host rejects with `e`. -/
theorem isRegistered_returns_host_answer (api : Tauri H T V E W) (s : String) (w : W) :
    invocations (isRegistered api s w).trace =
        [("plugin:globalShortcut|is_registered", some [("shortcut", ArgValue.str s)])] ∧
      (isRegistered api s w).result =
        (api.invoke "plugin:globalShortcut|is_registered"
          (some [("shortcut", ArgValue.str s)]) w).1 ∧
      (∀ v : V, (isRegistered api s w).result = .ok v ↔
        (api.invoke "plugin:globalShortcut|is_registered"
          (some [("shortcut", ArgValue.str s)]) w).1 = .ok v) ∧
      (∀ e : E, (isRegistered api s w).result = .error e ↔
        (api.invoke "plugin:globalShortcut|is_registered"
          (some [("shortcut", ArgValue.str s)]) w).1 = .error e) := by
  simp [isRegistered, invocations, Call.request]

/-- C4: `unregisterAll()` makes exactly one host invocation, of
`plugin:globalShortcut|unregister_all` with no argument object, and the
request is the same after any sequence of earlier calls of the exported
functions. -/
theorem unregisterAll_sends_bare_command (api : Tauri H T V E W) (w : W)
    (earlier : List (Request H)) :
    invocations (unregisterAll api w).trace =
        [("plugin:globalShortcut|unregister_all", none)] ∧
      (unregisterAll api (runSession api earlier w)).trace = (unregisterAll api w).trace := by
  simp [unregisterAll]
  rfl

/-! ## The binding: failures reach the caller -/

/-- C5: each exported function rejects with the very error its host
invocation rejects with, and `register` and `registerAll` reject with the
error of `transformCallback` when it throws, without any host invocation. -/
theorem errors_reach_the_caller (api : Tauri H T V E W) :
    (∀ (s : String) (h : H) (w w1 w2 : W) (t : T) (e : E),
        api.transformCallback h w = (.ok t, w1) →
        api.invoke "plugin:globalShortcut|register"
          (some [("shortcut", ArgValue.str s), ("handler", ArgValue.token t)]) w1
            = (.error e, w2) →
        (register api s h w).result = .error e) ∧
      (∀ (L : List String) (h : H) (w w1 w2 : W) (t : T) (e : E),
        api.transformCallback h w = (.ok t, w1) →
        api.invoke "plugin:globalShortcut|register_all"
          (some [("shortcuts", ArgValue.strs L), ("handler", ArgValue.token t)]) w1
            = (.error e, w2) →
        (registerAll api L h w).result = .error e) ∧
      (∀ (s : String) (w w1 : W) (e : E),
        api.invoke "plugin:globalShortcut|is_registered"
          (some [("shortcut", ArgValue.str s)]) w = (.error e, w1) →
        (isRegistered api s w).result = .error e) ∧
      (∀ (s : String) (w w1 : W) (e : E),
        api.invoke "plugin:globalShortcut|unregister"
          (some [("shortcut", ArgValue.str s)]) w = (.error e, w1) →
        (unregister api s w).result = .error e) ∧
      (∀ (w w1 : W) (e : E),
        api.invoke "plugin:globalShortcut|unregister_all" none w = (.error e, w1) →
        (unregisterAll api w).result = .error e) ∧
      (∀ (s : String) (h : H) (w w1 : W) (e : E),
        api.transformCallback h w = (.error e, w1) →
        (register api s h w).result = .error e ∧
          invocations (register api s h w).trace = []) ∧
      (∀ (L : List String) (h : H) (w w1 : W) (e : E),
        api.transformCallback h w = (.error e, w1) →
        (registerAll api L h w).result = .error e ∧
          invocations (registerAll api L h w).trace = []) := by
  refine ⟨?_, ?_, ?_, ?_, ?_, ?_, ?_⟩
  · intro s h w w1 w2 t e ht hi
    simp [register, ht, hi]
  · intro L h w w1 w2 t e ht hi
    simp [registerAll, ht, hi]
  · intro s w w1 e hi
    simp [isRegistered, hi]
  · intro s w w1 e hi
    simp [unregister, hi]
  · intro w w1 e hi
    simp [unregisterAll, hi]
  · intro s h w w1 e ht
    simp [register, ht, invocations, Call.request]
  · intro L h w w1 e ht
    simp [registerAll, ht, invocations, Call.request]

theorem errors_reach_the_caller_witness :
    (register rejectingApi "Ctrl+Q" 1 ()).result = .error "plugin:globalShortcut|register" ∧
      (registerAll rejectingApi ["Ctrl+Q"] 1 ()).result =
        .error "plugin:globalShortcut|register_all" ∧
      (isRegistered rejectingApi "Ctrl+Q" ()).result =
        .error "plugin:globalShortcut|is_registered" ∧
      (unregister rejectingApi "Ctrl+Q" ()).result = .error "plugin:globalShortcut|unregister" ∧
      (unregisterAll rejectingApi ()).result = .error "plugin:globalShortcut|unregister_all" ∧
      ((register throwingApi "Ctrl+Q" 1 ()).result = .error "transformCallback threw" ∧
        invocations (register throwingApi "Ctrl+Q" 1 ()).trace = []) ∧
      ((registerAll throwingApi ["Ctrl+Q"] 1 ()).result = .error "transformCallback threw" ∧
        invocations (registerAll throwingApi ["Ctrl+Q"] 1 ()).trace = []) :=
  ⟨(errors_reach_the_caller rejectingApi).1 "Ctrl+Q" 1 () () () 101 _ rfl rfl,
    (errors_reach_the_caller rejectingApi).2.1 ["Ctrl+Q"] 1 () () () 101 _ rfl rfl,
    (errors_reach_the_caller rejectingApi).2.2.1 "Ctrl+Q" () () _ rfl,
    (errors_reach_the_caller rejectingApi).2.2.2.1 "Ctrl+Q" () () _ rfl,
    (errors_reach_the_caller rejectingApi).2.2.2.2.1 () () _ rfl,
    (errors_reach_the_caller throwingApi).2.2.2.2.2.1 "Ctrl+Q" 1 () () _ rfl,
    (errors_reach_the_caller throwingApi).2.2.2.2.2.2 ["Ctrl+Q"] 1 () () _ rfl⟩

/-! ## The binding: shortcuts are forwarded verbatim -/

/-- C9: the `shortcut` field sent by `register`, `isRegistered` and
`unregister` is the caller's string itself; `unregister(s)` sends exactly
`{shortcut: s}` to `plugin:globalShortcut|unregister`; and two different
strings never yield the same request, whichever worlds the two calls run
in. -/
theorem shortcut_is_forwarded_verbatim (api : Tauri H T V E W) (s1 s2 : String) (h : H)
    (w w2 : W) (hne : s1 ≠ s2) :
    (∀ v ∈ shortcutFields (register api s1 h w).trace, v = ArgValue.str s1) ∧
      shortcutFields (isRegistered api s1 w).trace = [ArgValue.str s1] ∧
      shortcutFields (unregister api s1 w).trace = [ArgValue.str s1] ∧
      invocations (unregister api s1 w).trace =
        [("plugin:globalShortcut|unregister", some [("shortcut", ArgValue.str s1)])] ∧
      (∀ r1 ∈ invocations (register api s1 h w).trace,
        ∀ r2 ∈ invocations (register api s2 h w2).trace, r1 ≠ r2) ∧
      (∀ r1 ∈ invocations (isRegistered api s1 w).trace,
        ∀ r2 ∈ invocations (isRegistered api s2 w2).trace, r1 ≠ r2) ∧
      (∀ r1 ∈ invocations (unregister api s1 w).trace,
        ∀ r2 ∈ invocations (unregister api s2 w2).trace, r1 ≠ r2) := by
  refine ⟨?_, ?_, ?_, ?_, ?_, ?_, ?_⟩
  · intro v hv
    unfold register at hv
    split at hv
    · simp [shortcutFields, invocations, Call.request] at hv
    · simp [shortcutFields, invocations, Call.request] at hv
      exact hv
  · simp [isRegistered, shortcutFields, invocations, Call.request]
  · simp [unregister, shortcutFields, invocations, Call.request]
  · simp [unregister, invocations, Call.request]
  · intro r1 h1 r2 h2
    unfold register at h1 h2
    split at h1
    · simp [invocations, Call.request] at h1
    · split at h2
      · simp [invocations, Call.request] at h2
      · simp [invocations, Call.request] at h1 h2
        subst h1 h2
        simp [hne]
  · intro r1 h1 r2 h2
    simp [isRegistered, invocations, Call.request] at h1 h2
    subst h1 h2
    simp [hne]
  · intro r1 h1 r2 h2
    simp [unregister, invocations, Call.request] at h1 h2
    subst h1 h2
    simp [hne]

theorem shortcut_is_forwarded_verbatim_witness :
    "Shift+Ctrl+C" ≠ "Ctrl+Shift+C" ∧
      shortcutFields (register echoApi "Shift+Ctrl+C" 7 ()).trace
        = [ArgValue.str "Shift+Ctrl+C"] ∧
      shortcutFields (isRegistered echoApi "Shift+Ctrl+C" ()).trace
        = [ArgValue.str "Shift+Ctrl+C"] ∧
      (∀ r1 ∈ invocations (register echoApi "Shift+Ctrl+C" 7 ()).trace,
        ∀ r2 ∈ invocations (register echoApi "Ctrl+Shift+C" 7 ()).trace, r1 ≠ r2) :=
  ⟨by decide, by decide,
    (shortcut_is_forwarded_verbatim echoApi "Shift+Ctrl+C" "Ctrl+Shift+C" 7 () ()
      (by decide)).2.1,
    (shortcut_is_forwarded_verbatim echoApi "Shift+Ctrl+C" "Ctrl+Shift+C" 7 () ()
      (by decide)).2.2.2.2.1⟩

/-! ## The binding: commands and exports -/

/-- The commands a request can send: none when `transformCallback` throws,
otherwise the one command of the function it calls. -/
theorem commands_subset (api : Tauri H T V E W) (r : Request H) (w : W) (c : String)
    (hc : c ∈ r.commands api w) : c = hostCommandOf r.name := by
  cases r with
  | register s h =>
    simp only [Request.commands, Request.run, register] at hc
    split at hc
    · simp [invocations, Call.request] at hc
    · simp [invocations, Call.request] at hc
      subst hc
      simp only [Request.name]
      decide
  | registerAll l h =>
    simp only [Request.commands, Request.run, registerAll] at hc
    split at hc
    · simp [invocations, Call.request] at hc
    · simp [invocations, Call.request] at hc
      subst hc
      simp only [Request.name]
      decide
  | isRegistered s =>
    simp [Request.commands, Request.run, isRegistered, invocations, Call.request] at hc
    subst hc
    simp only [Request.name]
    decide
  | unregister s =>
    simp [Request.commands, Request.run, unregister, invocations, Call.request] at hc
    subst hc
    simp only [Request.name]
    decide
  | unregisterAll =>
    simp [Request.commands, Request.run, unregisterAll, invocations, Call.request] at hc
    subst hc
    simp only [Request.name]
    decide

/-- The host command determines the exported name. -/
theorem hostCommandOf_name_injective (a b : Request H)
    (hab : hostCommandOf a.name = hostCommandOf b.name) : a.name = b.name := by
  cases a <;> cases b <;> simp only [Request.name] at hab ⊢ <;>
    first | rfl | (exfalso; revert hab; decide)

/-- C10: two calls that send the same command call the same exported
function, and every command sent starts with `plugin:globalShortcut|`. -/
theorem command_identifies_operation (api : Tauri H T V E W) (a b : Request H) (wa wb : W)
    (c : String) (ha : c ∈ a.commands api wa) (hb : c ∈ b.commands api wb) :
    a.name = b.name ∧ ∃ rest : String, c = "plugin:globalShortcut|" ++ rest := by
  have h1 := commands_subset api a wa c ha
  have h2 := commands_subset api b wb c hb
  exact ⟨hostCommandOf_name_injective a b (h1.symm.trans h2), snakeCase a.name, h1⟩

theorem command_identifies_operation_witness :
    "plugin:globalShortcut|unregister_all" ∈
        (Request.unregisterAll : Request Nat).commands echoApi () ∧
      (Request.unregisterAll : Request Nat).name = (Request.unregisterAll : Request Nat).name ∧
      ∃ rest : String, "plugin:globalShortcut|unregister_all" = "plugin:globalShortcut|" ++ rest :=
  ⟨by decide,
    command_identifies_operation echoApi Request.unregisterAll Request.unregisterAll () ()
      "plugin:globalShortcut|unregister_all" (by decide) (by decide)⟩

/-- C6, as stated, fails: the command `registerAll` sends is neither its own
name nor its own name behind the plugin namespace. -/
theorem registerAll_does_not_send_own_name :
    ¬ ∀ (r : Request Nat) (c : String), c ∈ r.commands echoApi () →
        c = r.name ∨ c = "plugin:globalShortcut|" ++ r.name := by
  intro hall
  have h := hall (.registerAll ["Ctrl+A"] 0) "plugin:globalShortcut|register_all" (by decide)
  revert h
  decide

/-- C6, amended: the module exports exactly the five functions `register`,
`registerAll`, `isRegistered`, `unregister` and `unregisterAll`; every command
a call sends is `plugin:globalShortcut|` followed by the snake-case form of the
called function's name; and the argument object has the fields
`shortcut, handler` for `register`, `shortcuts, handler` for `registerAll`,
`shortcut` for `isRegistered` and `unregister`, and is absent for
`unregisterAll`. -/
theorem call_surface (api : Tauri H T V E W) (r : Request H) (w : W) :
    (∀ n : String, n ∈ moduleExports ↔
        n ∈ ["register", "registerAll", "isRegistered", "unregister", "unregisterAll"]) ∧
      moduleExports.Nodup ∧
      r.name ∈ moduleExports ∧
      (∀ c ∈ r.commands api w, c = "plugin:globalShortcut|" ++ snakeCase r.name) ∧
      (∀ req ∈ invocations (r.run api w).trace,
        argShape req.2 =
          match r with
          | .register _ _ => some ["shortcut", "handler"]
          | .registerAll _ _ => some ["shortcuts", "handler"]
          | .isRegistered _ => some ["shortcut"]
          | .unregister _ => some ["shortcut"]
          | .unregisterAll => none) := by
  refine ⟨?_, by decide, ?_, ?_, ?_⟩
  · intro n
    simp only [moduleExports, List.mem_cons, List.mem_singleton, List.not_mem_nil, or_false]
    tauto
  · cases r <;> simp only [Request.name] <;> decide
  · intro c hc
    exact commands_subset api r w c hc
  · intro req hreq
    cases r with
    | register s h =>
      simp only [Request.run, register] at hreq
      split at hreq
      · simp [invocations, Call.request] at hreq
      · simp [invocations, Call.request] at hreq
        subst hreq
        rfl
    | registerAll l h =>
      simp only [Request.run, registerAll] at hreq
      split at hreq
      · simp [invocations, Call.request] at hreq
      · simp [invocations, Call.request] at hreq
        subst hreq
        rfl
    | isRegistered s =>
      simp [Request.run, isRegistered, invocations, Call.request] at hreq
      subst hreq
      rfl
    | unregister s =>
      simp [Request.run, unregister, invocations, Call.request] at hreq
      subst hreq
      rfl
    | unregisterAll =>
      simp [Request.run, unregisterAll, invocations, Call.request] at hreq
      subst hreq
      rfl

end BindingTheorems

/-! ## The modelled host: registry lemmas -/

theorem parseAll_mem {K : Type} (parse : String → Option K) (L : List String) (ks : List K) (k : K)
    (hp : parseAll parse L = some ks) (hk : k ∈ ks) : ∃ s ∈ L, parse s = some k := by
  induction L generalizing ks with
  | nil =>
    simp [parseAll] at hp
    subst hp
    simp at hk
  | cons s ss ih =>
    unfold parseAll at hp
    cases h1 : parse s with
    | none => simp [h1] at hp
    | some k1 =>
      cases h2 : parseAll parse ss with
      | none => simp [h1, h2] at hp
      | some ks1 =>
        simp [h1, h2] at hp
        subst hp
        rcases List.mem_cons.mp hk with rfl | hk
        · exact ⟨s, List.mem_cons_self _ _, h1⟩
        · obtain ⟨s1, hs1, hps1⟩ := ih ks1 h2 hk
          exact ⟨s1, List.mem_cons_of_mem _ hs1, hps1⟩

section HostTheorems

variable {H K T : Type} [DecidableEq K]

theorem Registry.isRegistered_eq_false_iff (k : K) (σ : HostState K T) :
    Registry.isRegistered k σ = false ↔ ∀ p ∈ σ.registry, p.1 ≠ k := by
  simp [Registry.isRegistered]

theorem Registry.isRegistered_congr (k : K) (σ τ : HostState K T)
    (h : τ.registry = σ.registry) : Registry.isRegistered k τ = Registry.isRegistered k σ := by
  simp [Registry.isRegistered, h]

theorem Registry.register_error (denied : K → Bool) (k : K) (t : T) (σ σ1 : HostState K T)
    (e : HostError) (h : Registry.register denied k t σ = (.error e, σ1)) : σ1 = σ := by
  unfold Registry.register at h
  split at h
  · simp at h
    exact h.2.symm
  · split at h
    · simp at h
      exact h.2.symm
    · simp at h

theorem Registry.register_ok (denied : K → Bool) (k : K) (t : T) (σ σ1 : HostState K T)
    (u : Unit) (h : Registry.register denied k t σ = (.ok u, σ1)) :
    σ1.registry = (k, t) :: σ.registry ∧ Registry.isRegistered k σ = false ∧
      denied k = false := by
  unfold Registry.register at h
  split at h
  · simp at h
  · rename_i hreg
    unfold Adapter.install at h
    split at h
    · simp at h
    · rename_i hden
      simp at h
      simp at hden
      refine ⟨?_, by simpa using hreg, hden.1⟩
      rw [← h]

theorem Registry.rollback_registry (done : List K) (σ : HostState K T) :
    (Registry.rollback done σ).registry = σ.registry.filter fun p => decide (p.1 ∉ done) := by
  induction done generalizing σ with
  | nil => simp [Registry.rollback]
  | cons k ds ih =>
    have hstep : Registry.rollback (k :: ds) σ = Registry.rollback ds (Registry.unregister k σ) :=
      rfl
    rw [hstep, ih]
    simp only [Registry.unregister, List.filter_filter]
    apply List.filter_congr
    intro p _
    simp only [List.mem_cons, not_or, ne_eq, decide_not, Bool.decide_and]
    exact Bool.and_comm _ _

/-- Rolling back the combinations registered in this call gives back the
registry the call started from. -/
theorem Registry.rollback_restores (done : List K) (t : T) (base : List (K × T))
    (σ : HostState K T) (hreg : σ.registry = (done.map fun k => (k, t)) ++ base)
    (hfresh : ∀ k ∈ done, ∀ p ∈ base, p.1 ≠ k) :
    (Registry.rollback done σ).registry = base := by
  rw [Registry.rollback_registry, hreg, List.filter_append]
  have h1 : List.filter (fun p : K × T => decide (p.1 ∉ done)) (done.map fun k => (k, t)) = [] := by
    rw [List.filter_eq_nil_iff]
    intro p hp
    rw [List.mem_map] at hp
    obtain ⟨k, hk, rfl⟩ := hp
    simpa using hk
  have h2 : List.filter (fun p : K × T => decide (p.1 ∉ done)) base = base := by
    rw [List.filter_eq_self]
    intro p hp
    have : p.1 ∉ done := fun hmem => hfresh p.1 hmem p hp rfl
    simpa using this
  rw [h1, h2, List.nil_append]

/-- A failing batch leaves the registry it started from. -/
theorem Registry.registerAllFrom_error (denied : K → Bool) (t : T) (ks done : List K)
    (base : List (K × T)) (σ : HostState K T) (e : HostError)
    (hreg : σ.registry = (done.map fun k => (k, t)) ++ base)
    (hfresh : ∀ k ∈ done, ∀ p ∈ base, p.1 ≠ k)
    (hfail : (Registry.registerAllFrom denied t ks done σ).1 = .error e) :
    (Registry.registerAllFrom denied t ks done σ).2.registry = base := by
  induction ks generalizing done σ with
  | nil => simp [Registry.registerAllFrom] at hfail
  | cons k ks ih =>
    unfold Registry.registerAllFrom at hfail ⊢
    split at hfail
    · rename_i u σ1 hok
      obtain ⟨h1, h2, _⟩ := Registry.register_ok denied k t σ σ1 u hok
      apply ih (k :: done) σ1
      · rw [h1, hreg]
        rfl
      · intro k1 hk1 p hp
        rcases List.mem_cons.mp hk1 with rfl | hk1
        · rw [Registry.isRegistered_eq_false_iff] at h2
          apply h2
          rw [hreg]
          exact List.mem_append_right _ hp
        · exact hfresh k1 hk1 p hp
      · exact hfail
    · rename_i e1 σ1 herr
      have hσ := Registry.register_error denied k t σ σ1 e1 herr
      subst hσ
      exact Registry.rollback_restores done t base σ1 hreg hfresh

theorem Registry.registerAll_error (denied : K → Bool) (ks : List K) (t : T)
    (σ : HostState K T) (e : HostError)
    (hfail : (Registry.registerAll denied ks t σ).1 = .error e) :
    (Registry.registerAll denied ks t σ).2.registry = σ.registry :=
  Registry.registerAllFrom_error denied t ks [] σ.registry σ e (by simp)
    (by simp) hfail

/-! ## The binding in front of the modelled host -/

theorem decode_register (s : String) (t : T) :
    Host.decode "plugin:globalShortcut|register"
      (some [("shortcut", ArgValue.str s), ("handler", ArgValue.token t)])
        = some (HostCommand.register s t) := by
  simp [Host.decode, List.lookup]

theorem decode_registerAll (L : List String) (t : T) :
    Host.decode "plugin:globalShortcut|register_all"
      (some [("shortcuts", ArgValue.strs L), ("handler", ArgValue.token t)])
        = some (HostCommand.registerAll L t) := by
  simp [Host.decode, List.lookup]

theorem decode_isRegistered (s : String) :
    Host.decode "plugin:globalShortcut|is_registered"
      (some [("shortcut", (ArgValue.str s : ArgValue T))]) = some (HostCommand.isRegistered s) := by
  simp [Host.decode, List.lookup]

theorem decode_unregister (s : String) :
    Host.decode "plugin:globalShortcut|unregister"
      (some [("shortcut", (ArgValue.str s : ArgValue T))]) = some (HostCommand.unregister s) := by
  simp [Host.decode, List.lookup]

theorem decode_unregisterAll :
    Host.decode "plugin:globalShortcut|unregister_all" (none : Option (ArgObject T))
      = some HostCommand.unregisterAll := by
  simp [Host.decode]

/-- What `isRegistered` of the binding settles to in front of the modelled
host. -/
theorem isRegistered_hostApi (parse : String → Option K) (denied : K → Bool)
    (mint : H → Except HostError T) (s : String) (σ : HostState K T) :
    (isRegistered (hostApi parse denied mint) s σ).result =
      match parse s with
      | none => .error .invalidAccelerator
      | some k => .ok (.bool (Registry.isRegistered k σ)) := by
  simp only [isRegistered, hostApi, Host.invoke, decode_isRegistered, Host.perform]
  cases parse s <;> rfl

/-- What `registerAll` of the binding does to the registry of the modelled
host when it fails. -/
theorem registerAll_hostApi_error (parse : String → Option K) (denied : K → Bool)
    (mint : H → Except HostError T) (L : List String) (h : H) (σ : HostState K T)
    (e : HostError)
    (hfail : (registerAll (hostApi parse denied mint) L h σ).result = .error e) :
    (registerAll (hostApi parse denied mint) L h σ).world.registry = σ.registry := by
  unfold registerAll at hfail ⊢
  simp only [hostApi] at hfail ⊢
  cases hm : mint h with
  | error e1 => simp
  | ok t =>
    simp only [hm, Host.invoke, decode_registerAll, Host.perform] at hfail ⊢
    cases hp : parseAll parse L with
    | none => simp
    | some ks =>
      simp only [hp] at hfail ⊢
      cases hr : Registry.registerAll denied ks t σ with
      | mk res σ1 =>
        cases res with
        | error e1 =>
          simp only [hr]
          have := Registry.registerAll_error denied ks t σ e1 (by rw [hr])
          rw [hr] at this
          exact this
        | ok u => simp [hr] at hfail

/-- C7: in front of the modelled host, when `registerAll(L, h)` fails on a
conflict, the registry is the one before the call; so for every shortcut of
`L`, `isRegistered` answers what it answered before the call, and it answers
`false` for each one that was not registered before the call, which includes
every shortcut the call had registered before it met the conflict. -/
theorem registerAll_all_or_nothing (parse : String → Option K) (denied : K → Bool)
    (mint : H → Except HostError T) (L : List String) (h : H) (σ : HostState K T)
    (hfail : (registerAll (hostApi parse denied mint) L h σ).result
      = .error .alreadyRegistered) :
    (registerAll (hostApi parse denied mint) L h σ).world.registry = σ.registry ∧
      (∀ s ∈ L,
        (isRegistered (hostApi parse denied mint) s
            (registerAll (hostApi parse denied mint) L h σ).world).result =
          (isRegistered (hostApi parse denied mint) s σ).result) ∧
      (∀ s ∈ L,
        (isRegistered (hostApi parse denied mint) s σ).result = .ok (.bool false) →
        (isRegistered (hostApi parse denied mint) s
            (registerAll (hostApi parse denied mint) L h σ).world).result
          = .ok (.bool false)) := by
  have hreg := registerAll_hostApi_error parse denied mint L h σ _ hfail
  have heq : ∀ s : String,
      (isRegistered (hostApi parse denied mint) s
          (registerAll (hostApi parse denied mint) L h σ).world).result =
        (isRegistered (hostApi parse denied mint) s σ).result := by
    intro s
    rw [isRegistered_hostApi, isRegistered_hostApi]
    cases parse s with
    | none => rfl
    | some k => simp only [Registry.isRegistered_congr k σ _ hreg]
  exact ⟨hreg, fun s _ => heq s, fun s _ hs => (heq s).trans hs⟩

theorem registerAll_all_or_nothing_witness :
    (registerAll demoHost ["Ctrl+A", "Ctrl+B", "Ctrl+A"] 0 HostState.empty).result
        = .error .alreadyRegistered ∧
      (registerAll demoHost ["Ctrl+A", "Ctrl+B", "Ctrl+A"] 0 HostState.empty).world.registry
        = [] ∧
      (isRegistered demoHost "Ctrl+A"
          (registerAll demoHost ["Ctrl+A", "Ctrl+B", "Ctrl+A"] 0 HostState.empty).world).result
        = .ok (.bool false) ∧
      (isRegistered demoHost "Ctrl+B"
          (registerAll demoHost ["Ctrl+A", "Ctrl+B", "Ctrl+A"] 0 HostState.empty).world).result
        = .ok (.bool false) :=
  ⟨rfl,
    (registerAll_all_or_nothing demoParse (fun k => decide (k = "Ctrl+Alt+Delete"))
      (fun h => .ok (h + 100)) ["Ctrl+A", "Ctrl+B", "Ctrl+A"] 0 HostState.empty (by rfl)).1,
    (registerAll_all_or_nothing demoParse (fun k => decide (k = "Ctrl+Alt+Delete"))
      (fun h => .ok (h + 100)) ["Ctrl+A", "Ctrl+B", "Ctrl+A"] 0 HostState.empty (by rfl)).2.2
        "Ctrl+A" (by decide) rfl,
    (registerAll_all_or_nothing demoParse (fun k => decide (k = "Ctrl+Alt+Delete"))
      (fun h => .ok (h + 100)) ["Ctrl+A", "Ctrl+B", "Ctrl+A"] 0 HostState.empty (by rfl)).2.2
        "Ctrl+B" (by decide) rfl⟩

/-! ## The modelled host: what `isRegistered` can answer -/

theorem Registry.unregister_keeps_absent (k k1 : K) (σ : HostState K T)
    (h : Registry.isRegistered k σ = false) :
    Registry.isRegistered k (Registry.unregister k1 σ) = false := by
  rw [Registry.isRegistered_eq_false_iff] at h ⊢
  intro p hp
  exact h p (List.mem_of_mem_filter hp)

theorem Registry.unregister_releases (k : K) (σ : HostState K T) :
    Registry.isRegistered k (Registry.unregister k σ) = false := by
  rw [Registry.isRegistered_eq_false_iff]
  intro p hp
  simpa [Registry.unregister] using (List.mem_filter.mp hp).2

theorem Registry.rollback_keeps_absent (k : K) (done : List K) (σ : HostState K T)
    (h : Registry.isRegistered k σ = false) :
    Registry.isRegistered k (Registry.rollback done σ) = false := by
  induction done generalizing σ with
  | nil => exact h
  | cons k1 ds ih => exact ih (Registry.unregister k1 σ) (Registry.unregister_keeps_absent k k1 σ h)

/-- Registering `k1` cannot make `k` registered when `k1` is another
combination or the OS denies `k`. -/
theorem Registry.register_keeps_absent (denied : K → Bool) (k k1 : K) (t : T)
    (σ : HostState K T) (h : Registry.isRegistered k σ = false)
    (hk : denied k = true ∨ k1 ≠ k) :
    Registry.isRegistered k (Registry.register denied k1 t σ).2 = false := by
  cases hr : Registry.register denied k1 t σ with
  | mk res σ1 =>
    cases res with
    | error e =>
      rw [Registry.register_error denied k1 t σ σ1 e hr]
      exact h
    | ok u =>
      obtain ⟨h1, _, h3⟩ := Registry.register_ok denied k1 t σ σ1 u hr
      have hne : k1 ≠ k := by
        rcases hk with hd | hne
        · intro heq
          rw [heq, hd] at h3
          exact Bool.noConfusion h3
        · exact hne
      rw [Registry.isRegistered_eq_false_iff] at h ⊢
      intro p hp
      simp only [h1, List.mem_cons] at hp
      rcases hp with rfl | hp
      · exact hne
      · exact h p hp

theorem Registry.registerAllFrom_keeps_absent (denied : K → Bool) (k : K) (t : T)
    (ks done : List K) (σ : HostState K T) (h : Registry.isRegistered k σ = false)
    (hk : denied k = true ∨ k ∉ ks) :
    Registry.isRegistered k (Registry.registerAllFrom denied t ks done σ).2 = false := by
  induction ks generalizing done σ with
  | nil => exact h
  | cons k1 ks ih =>
    have hk1 : denied k = true ∨ k1 ≠ k := by
      rcases hk with hd | hn
      · exact Or.inl hd
      · exact Or.inr fun heq => hn (heq ▸ List.mem_cons_self _ _)
    have hks : denied k = true ∨ k ∉ ks := by
      rcases hk with hd | hn
      · exact Or.inl hd
      · exact Or.inr fun hmem => hn (List.mem_cons_of_mem _ hmem)
    have hstep := Registry.register_keeps_absent denied k k1 t σ h hk1
    unfold Registry.registerAllFrom
    split
    · rename_i u σ1 hok
      rw [hok] at hstep
      exact ih (k1 :: done) σ1 hstep hks
    · rename_i e1 σ1 herr
      rw [herr] at hstep
      exact Registry.rollback_keeps_absent k done σ1 hstep

/-- A host operation that does not ask to register `k`, or any operation when
the OS denies `k`, leaves `k` unregistered. -/
theorem Host.perform_keeps_absent (parse : String → Option K) (denied : K → Bool) (k : K)
    (c : HostCommand T) (σ : HostState K T) (h : Registry.isRegistered k σ = false)
    (hk : denied k = true ∨
      match c with
      | .register s _ => parse s ≠ some k
      | .registerAll L _ => ∀ s ∈ L, parse s ≠ some k
      | _ => True) :
    Registry.isRegistered k (Host.perform parse denied c σ).2 = false := by
  cases c with
  | register s t =>
    simp only [Host.perform]
    cases hp : parse s with
    | none => exact h
    | some k1 =>
      have hk1 : denied k = true ∨ k1 ≠ k := by
        rcases hk with hd | hn
        · exact Or.inl hd
        · exact Or.inr fun heq => hn (by rw [hp, heq])
      have := Registry.register_keeps_absent denied k k1 t σ h hk1
      dsimp only
      cases hr : Registry.register denied k1 t σ with
      | mk res σ1 =>
        rw [hr] at this
        cases res <;> exact this
  | registerAll L t =>
    simp only [Host.perform]
    cases hp : parseAll parse L with
    | none => exact h
    | some ks =>
      have hks : denied k = true ∨ k ∉ ks := by
        rcases hk with hd | hn
        · exact Or.inl hd
        · refine Or.inr fun hmem => ?_
          obtain ⟨s, hs, hps⟩ := parseAll_mem parse L ks k hp hmem
          exact hn s hs hps
      have := Registry.registerAllFrom_keeps_absent denied k t ks [] σ h hks
      dsimp only
      cases hr : Registry.registerAll denied ks t σ with
      | mk res σ1 =>
        have hr2 : Registry.registerAllFrom denied t ks [] σ = (res, σ1) := hr
        rw [hr2] at this
        cases res <;> exact this
  | isRegistered s =>
    simp only [Host.perform]
    cases parse s <;> exact h
  | unregister s =>
    simp only [Host.perform]
    cases parse s with
    | none => exact h
    | some k1 => exact Registry.unregister_keeps_absent k k1 σ h
  | unregisterAll => rfl

/-- A call of an exported function that does not ask to register `k`, or any
call when the OS denies `k`, leaves `k` unregistered. -/
theorem run_keeps_absent (parse : String → Option K) (denied : K → Bool)
    (mint : H → Except HostError T) (k : K) (r : Request H) (σ : HostState K T)
    (h : Registry.isRegistered k σ = false)
    (hk : denied k = true ∨ r.registers parse k = false) :
    Registry.isRegistered k (r.run (hostApi parse denied mint) σ).world = false := by
  cases r with
  | register s hd =>
    simp only [Request.run, register, hostApi]
    cases hm : mint hd with
    | error e => exact h
    | ok t =>
      simp only [Host.invoke, decode_register]
      apply Host.perform_keeps_absent parse denied k _ σ h
      rcases hk with hden | hn
      · exact Or.inl hden
      · exact Or.inr (by simpa [Request.registers] using hn)
  | registerAll L hd =>
    simp only [Request.run, registerAll, hostApi]
    cases hm : mint hd with
    | error e => exact h
    | ok t =>
      simp only [Host.invoke, decode_registerAll]
      apply Host.perform_keeps_absent parse denied k _ σ h
      rcases hk with hden | hn
      · exact Or.inl hden
      · exact Or.inr (by simpa [Request.registers] using hn)
  | isRegistered s =>
    simp only [Request.run, isRegistered, hostApi, Host.invoke, decode_isRegistered]
    exact Host.perform_keeps_absent parse denied k _ σ h (Or.inr trivial)
  | unregister s =>
    simp only [Request.run, unregister, hostApi, Host.invoke, decode_unregister]
    exact Host.perform_keeps_absent parse denied k _ σ h (Or.inr trivial)
  | unregisterAll => rfl

/-- A call that releases `k` leaves `k` unregistered. -/
theorem run_releases (parse : String → Option K) (denied : K → Bool)
    (mint : H → Except HostError T) (k : K) (r : Request H) (σ : HostState K T)
    (hr : r.releases parse k = true) :
    Registry.isRegistered k (r.run (hostApi parse denied mint) σ).world = false := by
  cases r with
  | register s hd => simp [Request.releases] at hr
  | registerAll L hd => simp [Request.releases] at hr
  | isRegistered s => simp [Request.releases] at hr
  | unregister s =>
    have hp : parse s = some k := by simpa [Request.releases] using hr
    simp only [Request.run, unregister, hostApi, Host.invoke, decode_unregister, Host.perform, hp]
    exact Registry.unregister_releases k σ
  | unregisterAll => rfl

theorem runSession_append {V E W : Type} (api : Tauri H T V E W) (pre post : List (Request H))
    (w : W) : runSession api (pre ++ post) w = runSession api post (runSession api pre w) := by
  induction pre generalizing w with
  | nil => rfl
  | cons r rs ih => exact ih _

theorem runSession_keeps_absent (parse : String → Option K) (denied : K → Bool)
    (mint : H → Except HostError T) (k : K) (rs : List (Request H)) (σ : HostState K T)
    (h : Registry.isRegistered k σ = false)
    (hk : denied k = true ∨ ∀ r ∈ rs, r.registers parse k = false) :
    Registry.isRegistered k (runSession (hostApi parse denied mint) rs σ) = false := by
  induction rs generalizing σ with
  | nil => exact h
  | cons r rs ih =>
    have h1 : denied k = true ∨ r.registers parse k = false := by
      rcases hk with hd | hn
      · exact Or.inl hd
      · exact Or.inr (hn r (List.mem_cons_self _ _))
    have h2 : denied k = true ∨ ∀ r1 ∈ rs, r1.registers parse k = false := by
      rcases hk with hd | hn
      · exact Or.inl hd
      · exact Or.inr fun r1 hr1 => hn r1 (List.mem_cons_of_mem _ hr1)
    exact ih _ (run_keeps_absent parse denied mint k r σ h h1) h2

/-- C8: in front of the modelled host, started with an empty registry,
`isRegistered(s)` answers `false` for every valid shortcut `s` whose
combination this application does not hold: the calls made so far end a
(possibly empty) part `pre` that is empty or ends with a call releasing the
combination (`unregister` of it, or `unregisterAll`), and after it either no
call asks to register the combination, or the OS denies it to this
application, as it does for a combination claimed by another one. -/
theorem isRegistered_false_unless_held (parse : String → Option K) (denied : K → Bool)
    (mint : H → Except HostError T) (pre post : List (Request H)) (s : String) (k : K)
    (hs : parse s = some k)
    (hpre : pre = [] ∨ ∃ (pre0 : List (Request H)) (r : Request H),
      pre = pre0 ++ [r] ∧ r.releases parse k = true)
    (hpost : denied k = true ∨ ∀ r ∈ post, r.registers parse k = false) :
    (isRegistered (hostApi parse denied mint) s
        (runSession (hostApi parse denied mint) (pre ++ post) HostState.empty)).result
      = .ok (.bool false) := by
  have hmid : Registry.isRegistered k
      (runSession (hostApi parse denied mint) pre (HostState.empty : HostState K T)) = false := by
    rcases hpre with rfl | ⟨pre0, r, rfl, hr⟩
    · rfl
    · rw [runSession_append]
      exact run_releases parse denied mint k r _ hr
  have hend := runSession_keeps_absent parse denied mint k post _ hmid hpost
  rw [isRegistered_hostApi, runSession_append, hs]
  simp only [hend]

theorem isRegistered_false_unless_held_witness :
    demoParse "Ctrl+Q" = some "Ctrl+Q" ∧
      (isRegistered demoHost "Ctrl+Q"
          (runSession demoHost
            ([Request.register "Ctrl+Q" 1, Request.unregister "Ctrl+Q"] ++
              [Request.register "Ctrl+A" 2])
            HostState.empty)).result = .ok (.bool false) :=
  ⟨by decide,
    isRegistered_false_unless_held demoParse (fun k => decide (k = "Ctrl+Alt+Delete"))
      (fun h => .ok (h + 100)) [Request.register "Ctrl+Q" 1, Request.unregister "Ctrl+Q"]
      [Request.register "Ctrl+A" 2] "Ctrl+Q" "Ctrl+Q" (by decide)
      (Or.inr ⟨[Request.register "Ctrl+Q" 1], Request.unregister "Ctrl+Q", rfl, by decide⟩)
      (Or.inr (by decide))⟩

end HostTheorems

end GlobalShortcut
